import Mathlib

/-!
Shallow embedding of `calculate_roic_for_ticker` from `src/app.py`
(Calculador ROIC).  Numeric line-item values are modelled as `PyVal`:
either a rational number or the floating-point NaN marker (`pd.isna`
values and the `np.nan` sentinel stored for "missing" ROIC).  A
financial statement is a list of columns keyed by period-end date, each
column an association list of line-item names to values, mirroring the
pandas DataFrames returned by the provider.
-/

/-- A numeric cell value: a rational number, or NaN (missing/undefined). -/
inductive PyVal where
  | num (q : ℚ)
  | nan
deriving DecidableEq, Repr

namespace PyVal

/-- `pd.isna`. -/
def isNan : PyVal → Bool
  | nan => true
  | num _ => false

/-- Float addition: NaN propagates. -/
def add : PyVal → PyVal → PyVal
  | num a, num b => num (a + b)
  | _, _ => nan

/-- Float subtraction: NaN propagates. -/
def sub : PyVal → PyVal → PyVal
  | num a, num b => num (a - b)
  | _, _ => nan

/-- Float multiplication: NaN propagates. -/
def mul : PyVal → PyVal → PyVal
  | num a, num b => num (a * b)
  | _, _ => nan

/-- Float division: NaN propagates.  Both call sites in the source guard
the denominator to be strictly positive, so the zero-denominator case
never arises there (see `divCheck` and the unreachability theorem). -/
def divP : PyVal → PyVal → PyVal
  | num a, num b => num (a / b)
  | _, _ => nan

/-- Python `x > 0` on a float: False when `x` is NaN. -/
def gt0 : PyVal → Bool
  | num q => decide (0 < q)
  | nan => false

/-- Python truthiness of a float: `0.0` is falsy, NaN is truthy. -/
def truthy : PyVal → Bool
  | num q => decide (q ≠ 0)
  | nan => true

end PyVal

/-- Checked division: signals `none` on a zero rational denominator
(the division-by-zero error branch), otherwise agrees with `divP`. -/
def divCheck : PyVal → PyVal → Option PyVal
  | v, .num b => if b = 0 then none else some (v.divP (.num b))
  | v, .nan => some (v.divP .nan)

/-- One reporting period's line items (`is_data` / `bs_data`): an
association list from item name to value. -/
def PeriodData := List (String × PyVal)

/-- `series.get(key)` → `Some value` when the key is present. -/
def getItem (d : PeriodData) (k : String) : Option PyVal :=
  match List.find? (fun p => p.1 == k) d with
  | some p => some p.2
  | none => none

/-- `series.get(key, default)`. -/
def getItemD (d : PeriodData) (k : String) (dflt : PyVal) : PyVal :=
  (getItem d k).getD dflt

/-- `ebit = is_data.get('EBIT', is_data.get('Operating Income', 0))` -/
def ebitOf (isd : PeriodData) : PyVal :=
  getItemD isd "EBIT" (getItemD isd "Operating Income" (.num 0))

/-- The fallback branch for the tax rate:
`tax_rate = (tax_prov / pretax_inc) if (pretax_inc and pretax_inc > 0) else 0.21` -/
def taxFallback (isd : PeriodData) : PyVal :=
  let pretax := getItemD isd "Pretax Income" (.num 0)
  let taxProv := getItemD isd "Tax Provision" (.num 0)
  if pretax.truthy && pretax.gt0 then taxProv.divP pretax else .num (21/100)

/-- `tax_rate = is_data.get('Tax Rate For Calcs')` followed by
`if tax_rate is None or pd.isna(tax_rate): (fallback)`. -/
def taxRateOf (isd : PeriodData) : PyVal :=
  match getItem isd "Tax Rate For Calcs" with
  | some v => if v.isNan then taxFallback isd else v
  | none => taxFallback isd

/-- `equity = bs_data.get('Stockholders Equity', bs_data.get('Total Equity Gross Minority Interest', 0))` -/
def equityOf (bsd : PeriodData) : PyVal :=
  getItemD bsd "Stockholders Equity"
    (getItemD bsd "Total Equity Gross Minority Interest" (.num 0))

/-- `total_debt = bs_data.get('Total Debt', current + long-term)` -/
def totalDebtOf (bsd : PeriodData) : PyVal :=
  getItemD bsd "Total Debt"
    ((getItemD bsd "Current Debt And Capital Lease Obligation" (.num 0)).add
      (getItemD bsd "Long Term Debt And Capital Lease Obligation" (.num 0)))

/-- `cash = bs_data.get('Cash And Cash Equivalents', bs_data.get('Cash Cash Equivalents And Short Term Investments', 0))` -/
def cashOf (bsd : PeriodData) : PyVal :=
  getItemD bsd "Cash And Cash Equivalents"
    (getItemD bsd "Cash Cash Equivalents And Short Term Investments" (.num 0))

/-- `nopat = ebit * (1 - tax_rate)` -/
def nopatOf (isd : PeriodData) : PyVal :=
  (ebitOf isd).mul ((PyVal.num 1).sub (taxRateOf isd))

/-- `invested_capital = equity + total_debt - cash` -/
def investedCapitalOf (bsd : PeriodData) : PyVal :=
  ((equityOf bsd).add (totalDebtOf bsd)).sub (cashOf bsd)

/-- The per-period value stored in `roic_values_by_year`:
`nopat / invested_capital` when `invested_capital > 0`, else `np.nan`. -/
def roicForPeriod (isd bsd : PeriodData) : PyVal :=
  if (investedCapitalOf bsd).gt0 then (nopatOf isd).divP (investedCapitalOf bsd)
  else .nan

/-- Same per-period computation, but with the ROIC division checked:
`none` would signal a division by a zero denominator. -/
def roicForPeriodChecked (isd bsd : PeriodData) : Option PyVal :=
  if (investedCapitalOf bsd).gt0 then divCheck (nopatOf isd) (investedCapitalOf bsd)
  else some .nan

/-- A period-end date (a pandas Timestamp column label). -/
structure Date where
  year : Nat
  month : Nat
  day : Nat
deriving DecidableEq, Repr

/-- Chronological (lexicographic) order on dates. -/
def Date.leB (a b : Date) : Bool :=
  decide (a.year < b.year ∨ (a.year = b.year ∧
    (a.month < b.month ∨ (a.month = b.month ∧ a.day ≤ b.day))))

/-- Insert a date into a descending-sorted list, keeping it descending. -/
def insertDesc (d : Date) : List Date → List Date
  | [] => [d]
  | x :: xs => if Date.leB x d then d :: x :: xs else x :: insertDesc d xs

/-- `sorted(dates, reverse=True)`: sort most recent first. -/
def sortDesc : List Date → List Date
  | [] => []
  | x :: xs => insertDesc x (sortDesc xs)

/-- One financial statement DataFrame: columns keyed by period-end date. -/
structure Statement where
  cols : List (Date × PeriodData)

/-- The column labels (`stmt.columns`). -/
def Statement.dates (s : Statement) : List Date :=
  s.cols.map (·.1)

/-- `stmt[date]`: the column for a period-end date, when present. -/
def Statement.getCol (s : Statement) (d : Date) : Option PeriodData :=
  match List.find? (fun p => decide (p.1 = d)) s.cols with
  | some p => some p.2
  | none => none

/-- `income_stmt.columns.intersection(balance_sheet.columns)`. -/
def commonDates (is bs : Statement) : List Date :=
  (Statement.dates is).filter (fun d => decide (d ∈ Statement.dates bs))

/-- `sorted(common_dates, reverse=True)[:num_years]`. -/
def selectedDates (is bs : Statement) (n : Nat) : List Date :=
  (sortDesc (commonDates is bs)).take n

/-- The body of one loop iteration up to the year/value pair it stores:
`none` models the iteration raising (caught by `except: continue`). -/
def stepFn (is bs : Statement) (d : Date) : Option (Nat × PyVal) :=
  match Statement.getCol is d, Statement.getCol bs d with
  | some isd, some bsd => some (d.year, roicForPeriod isd bsd)
  | _, _ => none

/-- Python dict assignment `acc[k] = v`: replace in place, else append. -/
def dictInsert (acc : List (Nat × PyVal)) (k : Nat) (v : PyVal) : List (Nat × PyVal) :=
  match acc with
  | [] => [(k, v)]
  | (k', v') :: t => if k' = k then (k, v) :: t else (k', v') :: dictInsert t k v

/-- The `for date in common_dates:` loop with per-period
`try: ... except: continue` semantics. -/
def runLoop (step : Date → Option (Nat × PyVal)) (acc : List (Nat × PyVal)) :
    List Date → List (Nat × PyVal)
  | [] => acc
  | d :: ds =>
    match step d with
    | none => runLoop step acc ds
    | some (k, v) => runLoop step (dictInsert acc k v) ds

/-- `calculate_roic_for_ticker` after a successful fetch of both
statements: the empty-statement early return followed by the loop. -/
def computeStmts (is bs : Statement) (n : Nat) : List (Nat × PyVal) :=
  if is.cols.isEmpty || bs.cols.isEmpty then []
  else runLoop (stepFn is bs) [] (selectedDates is bs n)

/-- `calculate_roic_for_ticker`: the outer `try`/`except: pass` absorbs a
failed fetch (`none`), returning the empty mapping. -/
def compute (fetch : Option (Statement × Statement)) (n : Nat) : List (Nat × PyVal) :=
  match fetch with
  | none => []
  | some (is, bs) => computeStmts is bs n

/-- `roic_values_by_year[k]` lookup on the resulting mapping. -/
def lookupDict (acc : List (Nat × PyVal)) (k : Nat) : Option PyVal :=
  match List.find? (fun p => p.1 == k) acc with
  | some p => some p.2
  | none => none

/-- The keys of the resulting mapping. -/
def keysOf (acc : List (Nat × PyVal)) : List Nat :=
  acc.map (·.1)


/-- Stated from the spec's words (testable property 3): the fallback when
the pre-computed tax-rate field is absent or undefined — divide Tax
Provision by Pretax Income only when Pretax Income is a number strictly
greater than 0, otherwise the flat 0.21 default. -/
def taxFallbackSpecRule (isd : PeriodData) : PyVal :=
  match getItem isd "Pretax Income" with
  | some (.num p) =>
    if 0 < p then (getItemD isd "Tax Provision" (.num 0)).divP (.num p)
    else .num (21/100)
  | _ => .num (21/100)

/-- Stated from the spec's words: the pre-computed effective tax-rate
field is used verbatim when present and not undefined; otherwise the
fallback rule applies. -/
def taxRateSpecRule (isd : PeriodData) : PyVal :=
  match getItem isd "Tax Rate For Calcs" with
  | some v => if v.isNan then taxFallbackSpecRule isd else v
  | none => taxFallbackSpecRule isd

/-! ### Concrete fixtures used to instantiate the theorems -/

/-- A period-end date. -/
def dEx : Date := ⟨2023, 12, 31⟩

/-- An earlier period-end date in the same calendar year. -/
def dEarly : Date := ⟨2023, 1, 1⟩

/-- An income-statement column: EBIT 100, tax rate 25%. -/
def isdEx : PeriodData := [("EBIT", .num 100), ("Tax Rate For Calcs", .num (1/4))]

/-- An income-statement column with a different EBIT, zero tax rate. -/
def isdEarly : PeriodData := [("EBIT", .num 40), ("Tax Rate For Calcs", .num 0)]

/-- An income-statement column with no "EBIT" and no "Operating Income". -/
def isdNoEbit : PeriodData := [("Tax Rate For Calcs", .num (1/4))]

/-- A balance-sheet column: equity 500, debt 200, cash 50. -/
def bsdEx : PeriodData :=
  [("Stockholders Equity", .num 500), ("Total Debt", .num 200),
   ("Cash And Cash Equivalents", .num 50)]

/-- A balance-sheet column with negative invested capital: 10 + 5 - 20. -/
def bsdNeg : PeriodData :=
  [("Stockholders Equity", .num 10), ("Total Debt", .num 5),
   ("Cash And Cash Equivalents", .num 20)]

/-- A one-period income statement. -/
def isEx : Statement := ⟨[(dEx, isdEx)]⟩

/-- A one-period balance sheet. -/
def bsEx : Statement := ⟨[(dEx, bsdEx)]⟩

/-- A one-period balance sheet with nonpositive invested capital. -/
def bsNeg : Statement := ⟨[(dEx, bsdNeg)]⟩

/-- A one-period income statement missing both EBIT items. -/
def isNoEbit : Statement := ⟨[(dEx, isdNoEbit)]⟩

/-- An income statement with two periods in the same calendar year. -/
def isTwo : Statement := ⟨[(dEx, isdEx), (dEarly, isdEarly)]⟩

/-- A balance sheet with columns for the same two periods. -/
def bsTwo : Statement := ⟨[(dEx, bsdEx), (dEarly, bsdEx)]⟩

/-- An empty statement (no columns). -/
def stmtEmpty : Statement := ⟨[]⟩

/-- A loop step that fails on year-0 dates and succeeds elsewhere. -/
def stepEx : Date → Option (Nat × PyVal) :=
  fun d => if d.year == 0 then none else some (d.year, .num 1)

/-- A date on which `stepEx` fails. -/
def dBad : Date := ⟨0, 1, 1⟩

/-- A third, older date on which `stepEx` succeeds. -/
def dOld : Date := ⟨2021, 12, 31⟩

/-! ### Helper lemmas -/

theorem getLastQ_cons {α : Type} (x : α) (l : List α) :
    (x :: l).getLast? = some ((l.getLast?).getD x) := by
  cases l with
  | nil => rfl
  | cons b t =>
    rw [List.getLast?_cons_cons, List.getLast?_eq_getLast_of_ne_nil (List.cons_ne_nil b t)]
    rfl

theorem mem_of_getLastQ {α : Type} {l : List α} {a : α} (h : l.getLast? = some a) : a ∈ l := by
  obtain ⟨hne, he⟩ := List.mem_getLast?_eq_getLast (show a ∈ l.getLast? from by rw [h]; rfl)
  rw [he]
  exact List.getLast_mem hne

theorem lookupDict_nil (k : Nat) : lookupDict [] k = none := rfl

theorem lookupDict_cons (p : Nat × PyVal) (t : List (Nat × PyVal)) (k : Nat) :
    lookupDict (p :: t) k = if p.1 = k then some p.2 else lookupDict t k := by
  by_cases h : p.1 = k
  · simp [lookupDict, List.find?, h]
  · simp only [lookupDict, List.find?]
    rw [show (p.1 == k) = false from by simpa using h]
    simp [h]

theorem lookupDict_dictInsert_self (acc : List (Nat × PyVal)) (k : Nat) (v : PyVal) :
    lookupDict (dictInsert acc k v) k = some v := by
  induction acc with
  | nil => simp [dictInsert, lookupDict_cons]
  | cons p t ih =>
    by_cases h : p.1 = k
    · simp [dictInsert, h, lookupDict_cons]
    · simp [dictInsert, h, lookupDict_cons, ih]

theorem lookupDict_dictInsert_ne (acc : List (Nat × PyVal)) (k k' : Nat) (v : PyVal)
    (h : k' ≠ k) : lookupDict (dictInsert acc k v) k' = lookupDict acc k' := by
  have hk : ¬ k = k' := fun hh => h hh.symm
  induction acc with
  | nil => simp [dictInsert, lookupDict_cons, lookupDict_nil, hk]
  | cons p t ih =>
    by_cases hp : p.1 = k
    · subst hp
      simp [dictInsert, lookupDict_cons, hk]
    · simp [dictInsert, hp, lookupDict_cons, ih]

theorem keysOf_dictInsert (acc : List (Nat × PyVal)) (k : Nat) (v : PyVal) :
    keysOf (dictInsert acc k v) =
      if k ∈ keysOf acc then keysOf acc else keysOf acc ++ [k] := by
  induction acc with
  | nil => simp [dictInsert, keysOf]
  | cons p t ih =>
    by_cases hp : p.1 = k
    · simp [dictInsert, hp, keysOf]
    · simp only [dictInsert, if_neg hp, keysOf, List.map_cons]
      rw [show keysOf (dictInsert t k v) = List.map (·.1) (dictInsert t k v) from rfl] at ih
      by_cases hm : k ∈ List.map (fun p => p.1) t
      · simp [keysOf, hm, ih, Ne.symm hp]
      · simp [keysOf, hm, ih, Ne.symm hp]

theorem length_dictInsert (acc : List (Nat × PyVal)) (k : Nat) (v : PyVal) :
    (dictInsert acc k v).length ≤ acc.length + 1 := by
  induction acc with
  | nil => simp [dictInsert]
  | cons p t ih =>
    by_cases hp : p.1 = k
    · simp [dictInsert, hp]
    · simp only [dictInsert, if_neg hp, List.length_cons]
      omega

theorem lookupDict_runLoop (step : Date → Option (Nat × PyVal)) (acc : List (Nat × PyVal))
    (ds : List Date) (k : Nat) :
    lookupDict (runLoop step acc ds) k =
      match ((ds.filterMap step).filter (fun p => p.1 == k)).getLast? with
      | some p => some p.2
      | none => lookupDict acc k := by
  induction ds generalizing acc with
  | nil => simp [runLoop]
  | cons d t ih =>
    cases hs : step d with
    | none => simp [runLoop, hs, List.filterMap_cons, ih]
    | some p =>
      obtain ⟨k₀, v₀⟩ := p
      simp only [runLoop, hs, List.filterMap_cons]
      rw [ih]
      by_cases hk : k₀ = k
      · subst hk
        rw [List.filter_cons_of_pos (by simp)]
        rw [getLastQ_cons]
        cases hLast : ((t.filterMap step).filter (fun p => p.1 == k₀)).getLast? with
        | some q => simp [hLast]
        | none => simp [hLast, lookupDict_dictInsert_self]
      · rw [List.filter_cons_of_neg (by simp [hk])]
        cases hLast : ((t.filterMap step).filter (fun p => p.1 == k)).getLast? with
        | some q => simp [hLast]
        | none => simp [hLast, lookupDict_dictInsert_ne _ _ _ _ (Ne.symm hk)]

theorem keysOf_runLoop_mem (step : Date → Option (Nat × PyVal)) (acc : List (Nat × PyVal))
    (ds : List Date) (k : Nat) (h : k ∈ keysOf (runLoop step acc ds)) :
    k ∈ keysOf acc ∨ ∃ d ∈ ds, ∃ v, step d = some (k, v) := by
  induction ds generalizing acc with
  | nil => left; simpa [runLoop] using h
  | cons d t ih =>
    cases hs : step d with
    | none =>
      rcases ih acc (by simpa [runLoop, hs] using h) with h1 | ⟨d', hd', v, hv⟩
      · left; exact h1
      · right; exact ⟨d', List.mem_cons_of_mem _ hd', v, hv⟩
    | some p =>
      obtain ⟨k₀, v₀⟩ := p
      rcases ih (dictInsert acc k₀ v₀) (by simpa [runLoop, hs] using h) with h1 | ⟨d', hd', v, hv⟩
      · rw [show keysOf (dictInsert acc k₀ v₀) =
            if k₀ ∈ keysOf acc then keysOf acc else keysOf acc ++ [k₀] from
          keysOf_dictInsert acc k₀ v₀] at h1
        by_cases hm : k₀ ∈ keysOf acc
        · left; simpa [hm] using h1
        · rw [if_neg hm, List.mem_append] at h1
          rcases h1 with h1 | h1
          · left; exact h1
          · right
            refine ⟨d, List.mem_cons_self d t, v₀, ?_⟩
            rw [hs]
            congr 1
            simp at h1
            rw [h1]
      · right; exact ⟨d', List.mem_cons_of_mem _ hd', v, hv⟩

theorem nodup_keysOf_dictInsert (acc : List (Nat × PyVal)) (k : Nat) (v : PyVal)
    (h : (keysOf acc).Nodup) : (keysOf (dictInsert acc k v)).Nodup := by
  rw [keysOf_dictInsert]
  by_cases hm : k ∈ keysOf acc
  · simpa [hm] using h
  · simp [hm, List.nodup_append, h]

theorem nodup_keysOf_runLoop (step : Date → Option (Nat × PyVal)) (acc : List (Nat × PyVal))
    (ds : List Date) (h : (keysOf acc).Nodup) : (keysOf (runLoop step acc ds)).Nodup := by
  induction ds generalizing acc with
  | nil => simpa [runLoop] using h
  | cons d t ih =>
    cases hs : step d with
    | none => simpa [runLoop, hs] using ih acc h
    | some p =>
      obtain ⟨k₀, v₀⟩ := p
      simpa [runLoop, hs] using ih (dictInsert acc k₀ v₀) (nodup_keysOf_dictInsert acc k₀ v₀ h)

theorem length_runLoop (step : Date → Option (Nat × PyVal)) (acc : List (Nat × PyVal))
    (ds : List Date) : (runLoop step acc ds).length ≤ acc.length + ds.length := by
  induction ds generalizing acc with
  | nil => simp [runLoop]
  | cons d t ih =>
    cases hs : step d with
    | none =>
      simp only [runLoop, hs]
      calc (runLoop step acc t).length ≤ acc.length + t.length := ih acc
        _ ≤ acc.length + (d :: t).length := by simp
    | some p =>
      obtain ⟨k₀, v₀⟩ := p
      simp only [runLoop, hs]
      calc (runLoop step (dictInsert acc k₀ v₀) t).length
          ≤ (dictInsert acc k₀ v₀).length + t.length := ih _
        _ ≤ (acc.length + 1) + t.length := by
            have := length_dictInsert acc k₀ v₀; omega
        _ = acc.length + (d :: t).length := by simp [Nat.add_comm, Nat.add_assoc, Nat.add_left_comm]

theorem runLoop_skip (step : Date → Option (Nat × PyVal)) (acc : List (Nat × PyVal))
    (l₁ l₂ : List Date) (d₀ : Date) (h : step d₀ = none) :
    runLoop step acc (l₁ ++ d₀ :: l₂) = runLoop step acc (l₁ ++ l₂) := by
  induction l₁ generalizing acc with
  | nil => simp [runLoop, h]
  | cons d t ih =>
    cases hs : step d with
    | none => simp [runLoop, hs, ih]
    | some p =>
      obtain ⟨k₀, v₀⟩ := p
      simp [runLoop, hs, ih]


theorem filterYear_cons_pos (y : Nat) (d : Date) (t : List Date) (h : (d.year == y) = true) :
    List.filter (fun d => d.year == y) (d :: t) = d :: t.filter (fun d => d.year == y) := by
  simp [List.filter_cons, h]

theorem filterYear_cons_neg (y : Nat) (d : Date) (t : List Date) (h : ¬ (d.year == y) = true) :
    List.filter (fun d => d.year == y) (d :: t) = t.filter (fun d => d.year == y) := by
  simp [List.filter_cons, h]

theorem filterKey_cons_pos (y : Nat) (p : Nat × PyVal) (t : List (Nat × PyVal))
    (h : (p.1 == y) = true) :
    List.filter (fun p => p.1 == y) (p :: t) = p :: t.filter (fun p => p.1 == y) := by
  simp [List.filter_cons, h]

theorem filterKey_cons_neg (y : Nat) (p : Nat × PyVal) (t : List (Nat × PyVal))
    (h : ¬ (p.1 == y) = true) :
    List.filter (fun p => p.1 == y) (p :: t) = t.filter (fun p => p.1 == y) := by
  simp [List.filter_cons, h]

theorem filter_filterMap_key_nil (step : Date → Option (Nat × PyVal))
    (hkey : ∀ d k v, step d = some (k, v) → k = d.year) (ds : List Date) (y : Nat)
    (h : ds.filter (fun d => d.year == y) = []) :
    (ds.filterMap step).filter (fun p => p.1 == y) = [] := by
  induction ds with
  | nil => simp
  | cons d t ih =>
    have hd : ¬ (d.year == y) = true := by
      intro hc
      rw [filterYear_cons_pos y d t hc] at h
      exact List.cons_ne_nil _ _ h
    rw [filterYear_cons_neg y d t hd] at h
    cases hs : step d with
    | none => simp only [List.filterMap_cons, hs]; exact ih h
    | some p =>
      obtain ⟨k, v⟩ := p
      have hk : k = d.year := hkey d k v hs
      rw [List.filterMap_cons, hs, filterKey_cons_neg y (k, v) _ (by simpa [hk] using hd)]
      exact ih h

theorem getLastQ_filterMap_key (step : Date → Option (Nat × PyVal))
    (hkey : ∀ d k v, step d = some (k, v) → k = d.year)
    (ds : List Date) (y : Nat) (dL : Date) (pv : Nat × PyVal)
    (hlast : (ds.filter (fun d => d.year == y)).getLast? = some dL)
    (hstep : step dL = some pv) :
    ((ds.filterMap step).filter (fun p => p.1 == y)).getLast? = some pv := by
  obtain ⟨kv, vv⟩ := pv
  induction ds with
  | nil => simp at hlast
  | cons d t ih =>
    by_cases hd : (d.year == y) = true
    · rw [filterYear_cons_pos y d t hd, getLastQ_cons] at hlast
      cases hft : (t.filter (fun d => d.year == y)).getLast? with
      | some dPrev =>
        rw [hft] at hlast
        simp only [Option.getD_some, Option.some.injEq] at hlast
        subst hlast
        have htail := ih hft
        rw [List.filterMap_cons]
        cases hs : step d with
        | none => exact htail
        | some p₀ =>
          obtain ⟨k₀, v₀⟩ := p₀
          have hk₀ : k₀ = d.year := hkey d k₀ v₀ hs
          rw [filterKey_cons_pos y (k₀, v₀) _ (by simpa [hk₀] using hd), getLastQ_cons, htail]
          rfl
      | none =>
        rw [hft] at hlast
        simp only [Option.getD_none, Option.some.injEq] at hlast
        subst hlast
        have hftnil : t.filter (fun d => d.year == y) = [] :=
          List.getLast?_eq_none_iff.mp hft
        have htailnil := filter_filterMap_key_nil step hkey t y hftnil
        rw [List.filterMap_cons, hstep]
        have hpk : kv = y := by
          have := hkey d kv vv hstep
          rw [this]
          simpa using hd
        rw [filterKey_cons_pos y (kv, vv) _ (by simpa using hpk), htailnil]
        rfl
    · rw [filterYear_cons_neg y d t hd] at hlast
      have htail := ih hlast
      rw [List.filterMap_cons]
      cases hs : step d with
      | none => exact htail
      | some p₀ =>
        obtain ⟨k₀, v₀⟩ := p₀
        have hk₀ : k₀ = d.year := hkey d k₀ v₀ hs
        rw [filterKey_cons_neg y (k₀, v₀) _ (by simpa [hk₀] using hd)]
        exact htail

theorem mem_insertDesc (d a : Date) (l : List Date) :
    a ∈ insertDesc d l ↔ a = d ∨ a ∈ l := by
  induction l with
  | nil => simp [insertDesc]
  | cons x xs ih =>
    by_cases h : Date.leB x d
    · simp [insertDesc, h]
    · simp [insertDesc, h, ih]
      tauto

theorem mem_sortDesc (a : Date) (l : List Date) : a ∈ sortDesc l ↔ a ∈ l := by
  induction l with
  | nil => simp [sortDesc]
  | cons x xs ih => simp [sortDesc, mem_insertDesc, ih]

theorem leB_of_not_leB {a b : Date} (h : ¬ a.leB b = true) : b.leB a = true := by
  simp [Date.leB] at h ⊢
  omega

theorem leB_trans {a b c : Date} (h1 : a.leB b = true) (h2 : b.leB c = true) :
    a.leB c = true := by
  simp [Date.leB] at h1 h2 ⊢
  omega

theorem pairwise_insertDesc (d : Date) (l : List Date)
    (h : l.Pairwise (fun a b => Date.leB b a = true)) :
    (insertDesc d l).Pairwise (fun a b => Date.leB b a = true) := by
  induction l with
  | nil => simp [insertDesc]
  | cons x xs ih =>
    rcases List.pairwise_cons.mp h with ⟨hx, hxs⟩
    by_cases hc : Date.leB x d
    · rw [insertDesc, if_pos hc]
      refine List.pairwise_cons.mpr ⟨?_, h⟩
      intro e he
      rcases List.mem_cons.mp he with rfl | he
      · exact hc
      · exact leB_trans (hx e he) hc
    · rw [insertDesc, if_neg hc]
      refine List.pairwise_cons.mpr ⟨?_, ih hxs⟩
      intro e he
      rcases (mem_insertDesc d e xs).mp he with rfl | he
      · exact leB_of_not_leB hc
      · exact hx e he

theorem pairwise_sortDesc (l : List Date) :
    (sortDesc l).Pairwise (fun a b => Date.leB b a = true) := by
  induction l with
  | nil => simp [sortDesc]
  | cons x xs ih => exact pairwise_insertDesc x (sortDesc xs) ih

theorem stepFn_key (is bs : Statement) (d : Date) (k : Nat) (v : PyVal)
    (h : stepFn is bs d = some (k, v)) : k = d.year := by
  unfold stepFn at h
  cases h1 : Statement.getCol is d with
  | none => rw [h1] at h; exact absurd h (by simp)
  | some isd =>
    cases h2 : Statement.getCol bs d with
    | none => rw [h1, h2] at h; exact absurd h (by simp)
    | some bsd =>
      rw [h1, h2] at h
      simp at h
      exact h.1.symm

theorem lookupDict_computeStmts (is bs : Statement) (n : Nat) (y : Nat) (dL : Date)
    (isd bsd : PeriodData)
    (hsel : ((selectedDates is bs n).filter (fun d => d.year == y)).getLast? = some dL)
    (his : Statement.getCol is dL = some isd) (hbs : Statement.getCol bs dL = some bsd) :
    lookupDict (computeStmts is bs n) y = some (roicForPeriod isd bsd) := by
  have hmemF : dL ∈ (selectedDates is bs n).filter (fun d => d.year == y) :=
    mem_of_getLastQ hsel
  have hmemSel : dL ∈ selectedDates is bs n := (List.mem_filter.mp hmemF).1
  have hyear : dL.year = y := by simpa using (List.mem_filter.mp hmemF).2
  have hmemSort : dL ∈ sortDesc (commonDates is bs) := List.mem_of_mem_take hmemSel
  have hmemCommon : dL ∈ commonDates is bs := (mem_sortDesc _ _).mp hmemSort
  have hmemIs : dL ∈ Statement.dates is := (List.mem_filter.mp hmemCommon).1
  have hmemBs : dL ∈ Statement.dates bs := by
    have := (List.mem_filter.mp hmemCommon).2
    simpa using this
  have hisne : is.cols.isEmpty = false := by
    cases hc : is.cols with
    | nil => rw [Statement.dates, hc] at hmemIs; simp at hmemIs
    | cons p t => simp [hc]
  have hbsne : bs.cols.isEmpty = false := by
    cases hc : bs.cols with
    | nil => rw [Statement.dates, hc] at hmemBs; simp at hmemBs
    | cons p t => simp [hc]
  have hstep : stepFn is bs dL = some (y, roicForPeriod isd bsd) := by
    rw [stepFn, his, hbs, hyear]
  rw [computeStmts, hisne, hbsne]
  simp only [Bool.or_self, Bool.false_eq_true, if_false]
  rw [lookupDict_runLoop]
  rw [getLastQ_filterMap_key (stepFn is bs) (stepFn_key is bs) _ y dL _ hsel hstep]

theorem mem_keysOf_of_lookup (acc : List (Nat × PyVal)) (k : Nat) (v : PyVal)
    (h : lookupDict acc k = some v) : k ∈ keysOf acc := by
  induction acc with
  | nil => simp [lookupDict_nil] at h
  | cons p t ih =>
    rw [lookupDict_cons] at h
    by_cases hp : p.1 = k
    · rw [keysOf, List.map_cons]
      exact hp ▸ List.mem_cons_self _ _
    · rw [if_neg hp] at h
      exact List.mem_cons_of_mem _ (ih h)

/-- C1: for an aligned period whose stored slot it is (the last selected
date of its calendar year), if EBIT, the tax rate and invested capital
(Equity + Total Debt − Cash, by the source's fallback rules) evaluate to
numbers with invested capital strictly positive, then the returned series
maps that year to EBIT × (1 − tax_rate) / (Equity + Total Debt − Cash). -/
theorem roic_value_when_invested_capital_pos (is bs : Statement) (n y : Nat) (dL : Date)
    (isd bsd : PeriodData) (q e t : ℚ)
    (hsel : ((selectedDates is bs n).filter (fun d => d.year == y)).getLast? = some dL)
    (his : Statement.getCol is dL = some isd) (hbs : Statement.getCol bs dL = some bsd)
    (he : ebitOf isd = .num e) (ht : taxRateOf isd = .num t)
    (hic : investedCapitalOf bsd = .num q) (hq : 0 < q) :
    lookupDict (computeStmts is bs n) y = some (.num (e * (1 - t) / q)) := by
  rw [lookupDict_computeStmts is bs n y dL isd bsd hsel his hbs]
  rw [roicForPeriod, hic]
  rw [show PyVal.gt0 (.num q) = true from by simp [PyVal.gt0, hq]]
  simp only [if_true]
  rw [nopatOf, he, ht]
  rfl

/-- C1 witness: EBIT 100, tax rate 1/4, equity 500 + debt 200 − cash 50,
so the stored ROIC for 2023 is 100 × (1 − 1/4) / 650. -/
theorem roic_value_when_invested_capital_pos_witness :
    lookupDict (computeStmts isEx bsEx 5) 2023 = some (.num (100 * (1 - 1/4) / 650)) :=
  roic_value_when_invested_capital_pos isEx bsEx 5 2023 dEx isdEx bsdEx 650 100 (1/4)
    (by simp [selectedDates, commonDates, sortDesc, insertDesc, Statement.dates, isEx, bsEx, dEx])
    (by simp [Statement.getCol, List.find?, isEx])
    (by simp [Statement.getCol, List.find?, bsEx])
    (by simp [ebitOf, getItemD, getItem, List.find?, isdEx])
    (by simp [taxRateOf, getItem, List.find?, isdEx, PyVal.isNan])
    (by simp [investedCapitalOf, equityOf, totalDebtOf, cashOf, getItemD, getItem,
        List.find?, bsdEx, PyVal.add, PyVal.sub]; norm_num)
    (by norm_num)

/-- C2: for an aligned period whose stored slot it is, if invested
capital evaluates to a number less than or equal to 0 (including exactly
0), the returned series maps that year to the NaN missing marker — no
numeric ROIC, and (by totality of the embedding) no exception. -/
theorem roic_missing_when_invested_capital_nonpos (is bs : Statement) (n y : Nat)
    (dL : Date) (isd bsd : PeriodData) (q : ℚ)
    (hsel : ((selectedDates is bs n).filter (fun d => d.year == y)).getLast? = some dL)
    (his : Statement.getCol is dL = some isd) (hbs : Statement.getCol bs dL = some bsd)
    (hic : investedCapitalOf bsd = .num q) (hq : q ≤ 0) :
    lookupDict (computeStmts is bs n) y = some PyVal.nan := by
  rw [lookupDict_computeStmts is bs n y dL isd bsd hsel his hbs]
  rw [roicForPeriod, hic]
  rw [show PyVal.gt0 (.num q) = false from by simp [PyVal.gt0, not_lt.mpr hq]]
  simp

/-- C2 witness: equity 10 + debt 5 − cash 20 gives invested capital −5,
and the stored result for 2023 is the NaN marker. -/
theorem roic_missing_when_invested_capital_nonpos_witness :
    lookupDict (computeStmts isEx bsNeg 5) 2023 = some PyVal.nan :=
  roic_missing_when_invested_capital_nonpos isEx bsNeg 5 2023 dEx isdEx bsdNeg (-5)
    (by simp [selectedDates, commonDates, sortDesc, insertDesc, Statement.dates, isEx, bsNeg, dEx])
    (by simp [Statement.getCol, List.find?, isEx])
    (by simp [Statement.getCol, List.find?, bsNeg])
    (by simp [investedCapitalOf, equityOf, totalDebtOf, cashOf, getItemD, getItem,
        List.find?, bsdNeg, PyVal.add, PyVal.sub]; norm_num)
    (by norm_num)

/-- C3: the tax rate computed by the source equals the spec's ordered
rule — the pre-computed field verbatim when present and not undefined;
else Tax Provision ÷ Pretax Income exactly when Pretax Income is a number
strictly greater than 0; else the flat 0.21 default. -/
theorem tax_rate_matches_spec_rule (isd : PeriodData) :
    taxRateOf isd = taxRateSpecRule isd := by
  have hfb : taxFallback isd = taxFallbackSpecRule isd := by
    rw [taxFallback, taxFallbackSpecRule]
    cases hp : getItem isd "Pretax Income" with
    | none => simp [getItemD, hp, PyVal.truthy, PyVal.gt0]
    | some v =>
      cases v with
      | nan => simp [getItemD, hp, PyVal.truthy, PyVal.gt0]
      | num p =>
        simp only [getItemD, hp, Option.getD_some]
        by_cases h0 : 0 < p
        · rw [if_pos (by simp [PyVal.truthy, PyVal.gt0, h0, ne_of_gt h0]), if_pos h0]
        · rw [if_neg (by simp [PyVal.truthy, PyVal.gt0, h0]), if_neg h0]
  rw [taxRateOf, taxRateSpecRule]
  cases ht : getItem isd "Tax Rate For Calcs" with
  | none => exact hfb
  | some v =>
    cases v with
    | nan => simp [PyVal.isNan, hfb]
    | num r => simp [PyVal.isNan]

/-- C4 counterexample: with both "EBIT" and "Operating Income" absent
from the income column and invested capital positive (650), the stored
result for the period is the number 0, not the undefined/missing marker,
refuting the claim as stated. -/
theorem missing_ebit_stores_zero_counterexample :
    getItem isdNoEbit "EBIT" = none ∧
    getItem isdNoEbit "Operating Income" = none ∧
    lookupDict (computeStmts isNoEbit bsEx 5) 2023 = some (PyVal.num 0) ∧
    ¬ lookupDict (computeStmts isNoEbit bsEx 5) 2023 = some PyVal.nan := by
  have h1 : getItem isdNoEbit "EBIT" = none := by
    simp [getItem, List.find?, isdNoEbit]
  have h2 : getItem isdNoEbit "Operating Income" = none := by
    simp [getItem, List.find?, isdNoEbit]
  have h3 : lookupDict (computeStmts isNoEbit bsEx 5) 2023 = some (PyVal.num 0) := by
    rw [lookupDict_computeStmts isNoEbit bsEx 5 2023 dEx isdNoEbit bsdEx
      (by simp [selectedDates, commonDates, sortDesc, insertDesc, Statement.dates,
        isNoEbit, bsEx, dEx])
      (by simp [Statement.getCol, List.find?, isNoEbit])
      (by simp [Statement.getCol, List.find?, bsEx])]
    have hic : investedCapitalOf bsdEx = .num 650 := by
      simp [investedCapitalOf, equityOf, totalDebtOf, cashOf, getItemD, getItem,
        List.find?, bsdEx, PyVal.add, PyVal.sub]
      norm_num
    have he : ebitOf isdNoEbit = .num 0 := by
      rw [ebitOf, getItemD, h1, getItemD, h2]
      rfl
    have ht : taxRateOf isdNoEbit = .num (1/4) := by
      simp [taxRateOf, getItem, List.find?, isdNoEbit, PyVal.isNan]
    rw [roicForPeriod, hic]
    rw [show PyVal.gt0 (.num 650) = true from by simp [PyVal.gt0]]
    simp only [if_true]
    rw [nopatOf, he, ht]
    simp [PyVal.mul, PyVal.sub, PyVal.divP]
  refine ⟨h1, h2, h3, ?_⟩
  rw [h3]
  simp

/-- C4 (amended): when both the "EBIT" item and the "Operating Income"
fallback are absent, EBIT defaults to 0; hence, whenever the tax rate
evaluates to a number and invested capital is a strictly positive number,
the returned series maps the period's year to the numeric value 0 — the
missing marker is not stored for it. -/
theorem missing_ebit_defaults_to_zero (is bs : Statement) (n y : Nat) (dL : Date)
    (isd bsd : PeriodData) (q t : ℚ)
    (hsel : ((selectedDates is bs n).filter (fun d => d.year == y)).getLast? = some dL)
    (his : Statement.getCol is dL = some isd) (hbs : Statement.getCol bs dL = some bsd)
    (hE : getItem isd "EBIT" = none) (hOI : getItem isd "Operating Income" = none)
    (ht : taxRateOf isd = .num t)
    (hic : investedCapitalOf bsd = .num q) (hq : 0 < q) :
    lookupDict (computeStmts is bs n) y = some (PyVal.num 0) := by
  rw [lookupDict_computeStmts is bs n y dL isd bsd hsel his hbs]
  have he : ebitOf isd = .num 0 := by
    rw [ebitOf, getItemD, hE, getItemD, hOI]
    rfl
  rw [roicForPeriod, hic]
  rw [show PyVal.gt0 (.num q) = true from by simp [PyVal.gt0, hq]]
  simp only [if_true]
  rw [nopatOf, he, ht]
  simp [PyVal.mul, PyVal.sub, PyVal.divP]

/-- C4 witness: the amended claim instantiated on the concrete no-EBIT
income statement. -/
theorem missing_ebit_defaults_to_zero_witness :
    lookupDict (computeStmts isNoEbit bsEx 5) 2023 = some (PyVal.num 0) :=
  missing_ebit_defaults_to_zero isNoEbit bsEx 5 2023 dEx isdNoEbit bsdEx 650 (1/4)
    (by simp [selectedDates, commonDates, sortDesc, insertDesc, Statement.dates,
      isNoEbit, bsEx, dEx])
    (by simp [Statement.getCol, List.find?, isNoEbit])
    (by simp [Statement.getCol, List.find?, bsEx])
    (by simp [getItem, List.find?, isdNoEbit])
    (by simp [getItem, List.find?, isdNoEbit])
    (by simp [taxRateOf, getItem, List.find?, isdNoEbit, PyVal.isNan])
    (by simp [investedCapitalOf, equityOf, totalDebtOf, cashOf, getItemD, getItem,
        List.find?, bsdEx, PyVal.add, PyVal.sub]; norm_num)
    (by norm_num)

/-- C5: when the fetch of a ticker's statements fails entirely (the outer
`except` absorbs the exception), `compute` returns the empty series; the
embedding is total, so no exception reaches the caller. -/
theorem compute_failed_fetch_returns_empty (n : Nat) : compute none n = [] := rfl

/-- C6: the `try/continue` loop semantics — when exactly one period's
extraction fails, the run over the full date list equals the run with
that period removed, so every other period's entry is preserved. -/
theorem per_period_failure_skips_only_that_period (step : Date → Option (Nat × PyVal))
    (acc : List (Nat × PyVal)) (l₁ l₂ : List Date) (d₀ : Date)
    (h : step d₀ = none) :
    runLoop step acc (l₁ ++ d₀ :: l₂) = runLoop step acc (l₁ ++ l₂) :=
  runLoop_skip step acc l₁ l₂ d₀ h

/-- C6 witness: `stepEx` fails on `dBad` only, and the loop over
`[dEx, dBad, dOld]` equals the loop over `[dEx, dOld]`. -/
theorem per_period_failure_skips_only_that_period_witness :
    stepEx dBad = none ∧
    runLoop stepEx [] ([dEx] ++ dBad :: [dOld]) = runLoop stepEx [] ([dEx] ++ [dOld]) :=
  ⟨by simp [stepEx, dBad],
   per_period_failure_skips_only_that_period stepEx [] [dEx] [dOld] dBad
     (by simp [stepEx, dBad])⟩

/-- C9: the per-period computation with the ROIC division checked never
takes the zero-denominator error branch — the `invested_capital > 0`
guard makes it agree everywhere with the unchecked computation. -/
theorem roic_division_by_zero_unreachable (isd bsd : PeriodData) :
    roicForPeriodChecked isd bsd = some (roicForPeriod isd bsd) := by
  rw [roicForPeriodChecked, roicForPeriod]
  cases hic : investedCapitalOf bsd with
  | nan => simp [PyVal.gt0]
  | num q =>
    by_cases hq : 0 < q
    · rw [show PyVal.gt0 (.num q) = true from by simp [PyVal.gt0, hq]]
      simp only [if_true]
      simp [divCheck, ne_of_gt hq]
    · rw [show PyVal.gt0 (.num q) = false from by simp [PyVal.gt0, hq]]
      simp

/-- C10: an empty income statement or an empty balance sheet
short-circuits to the exactly empty series. -/
theorem empty_statement_returns_empty_series (is bs : Statement) (n : Nat)
    (h : is.cols = [] ∨ bs.cols = []) : computeStmts is bs n = [] := by
  rw [computeStmts]
  rcases h with h | h <;> simp [h]

/-- C10 witness: an empty income statement with a nonempty balance sheet. -/
theorem empty_statement_returns_empty_series_witness :
    computeStmts stmtEmpty bsEx 5 = [] :=
  empty_statement_returns_empty_series stmtEmpty bsEx 5 (Or.inl rfl)

/-- C7: every year in the returned series is the calendar year of one of
the selected dates; every selected date is a column of both statements;
the selected dates are the most recent `num_years` common dates in
descending order; and the series has at most `num_years` entries. -/
theorem series_years_from_common_dates (is bs : Statement) (n : Nat) :
    (∀ y ∈ keysOf (computeStmts is bs n), ∃ d ∈ selectedDates is bs n, d.year = y) ∧
    (∀ d ∈ selectedDates is bs n, d ∈ Statement.dates is ∧ d ∈ Statement.dates bs) ∧
    selectedDates is bs n = (sortDesc (commonDates is bs)).take n ∧
    (computeStmts is bs n).length ≤ n := by
  refine ⟨?_, ?_, rfl, ?_⟩
  · intro y hy
    rw [computeStmts] at hy
    by_cases hemp : (is.cols.isEmpty || bs.cols.isEmpty) = true
    · rw [if_pos hemp] at hy
      simp [keysOf] at hy
    · rw [if_neg hemp] at hy
      rcases keysOf_runLoop_mem _ _ _ _ hy with h | ⟨d, hd, v, hv⟩
      · simp [keysOf] at h
      · exact ⟨d, hd, (stepFn_key is bs d y v hv).symm⟩
  · intro d hd
    have hmemSort : d ∈ sortDesc (commonDates is bs) := List.mem_of_mem_take hd
    have hmemCommon : d ∈ commonDates is bs := (mem_sortDesc _ _).mp hmemSort
    refine ⟨(List.mem_filter.mp hmemCommon).1, ?_⟩
    have := (List.mem_filter.mp hmemCommon).2
    simpa using this
  · rw [computeStmts]
    by_cases hemp : (is.cols.isEmpty || bs.cols.isEmpty) = true
    · simp [hemp]
    · rw [if_neg hemp]
      have h1 := length_runLoop (stepFn is bs) [] (selectedDates is bs n)
      have h2 : (selectedDates is bs n).length ≤ n := by
        rw [selectedDates]
        exact List.length_take_le n _
      simp only [List.length_nil, Nat.zero_add] at h1
      omega

/-- C7 witness: the bound instantiated on the concrete statements. -/
theorem series_years_from_common_dates_witness :
    (computeStmts isEx bsEx 5).length ≤ 5 :=
  (series_years_from_common_dates isEx bsEx 5).2.2.2

/-- C8: when exactly two selected dates share calendar year `y`, the
series has a single entry for `y`, its value is the per-period value of
the later-iterated date `d₂`, and `d₂` is the older of the two. -/
theorem same_year_later_date_overwrites (is bs : Statement) (n y : Nat) (d₁ d₂ : Date)
    (isd bsd : PeriodData)
    (hfil : (selectedDates is bs n).filter (fun d => d.year == y) = [d₁, d₂])
    (his : Statement.getCol is d₂ = some isd) (hbs : Statement.getCol bs d₂ = some bsd) :
    lookupDict (computeStmts is bs n) y = some (roicForPeriod isd bsd) ∧
    (keysOf (computeStmts is bs n)).count y = 1 ∧
    Date.leB d₂ d₁ = true := by
  have hsel : ((selectedDates is bs n).filter (fun d => d.year == y)).getLast? = some d₂ := by
    rw [hfil]
    rfl
  have hlook := lookupDict_computeStmts is bs n y d₂ isd bsd hsel his hbs
  refine ⟨hlook, ?_, ?_⟩
  · have hmem : y ∈ keysOf (computeStmts is bs n) :=
      mem_keysOf_of_lookup _ _ _ hlook
    have hnodup : (keysOf (computeStmts is bs n)).Nodup := by
      rw [computeStmts]
      by_cases hemp : (is.cols.isEmpty || bs.cols.isEmpty) = true
      · simp [hemp, keysOf]
      · rw [if_neg hemp]
        exact nodup_keysOf_runLoop _ _ _ (by simp [keysOf])
    have h1 := List.nodup_iff_count_le_one.mp hnodup y
    have h2 := List.count_pos_iff.mpr hmem
    omega
  · have hpw : (sortDesc (commonDates is bs)).Pairwise (fun a b => Date.leB b a = true) :=
      pairwise_sortDesc _
    have hpwSel : (selectedDates is bs n).Pairwise (fun a b => Date.leB b a = true) :=
      hpw.sublist (List.take_sublist n _)
    have hpwFil : ((selectedDates is bs n).filter
        (fun d => d.year == y)).Pairwise (fun a b => Date.leB b a = true) :=
      hpwSel.sublist (List.filter_sublist _)
    rw [hfil] at hpwFil
    exact (List.pairwise_cons.mp hpwFil).1 d₂ (List.mem_cons_self _ _)

/-- C8 witness: two 2023 period-end dates; the stored 2023 value is the
one computed from the older date `dEarly`, and there is one 2023 entry. -/
theorem same_year_later_date_overwrites_witness :
    lookupDict (computeStmts isTwo bsTwo 5) 2023 = some (roicForPeriod isdEarly bsdEx) ∧
    (keysOf (computeStmts isTwo bsTwo 5)).count 2023 = 1 ∧
    Date.leB dEarly dEx = true :=
  same_year_later_date_overwrites isTwo bsTwo 5 2023 dEx dEarly isdEarly bsdEx
    (by simp [selectedDates, commonDates, sortDesc, insertDesc, Statement.dates,
      isTwo, bsTwo, dEx, dEarly, Date.leB])
    (by simp [Statement.getCol, List.find?, isTwo, dEx, dEarly])
    (by simp [Statement.getCol, List.find?, bsTwo, dEx, dEarly])
